import Mathlib

/-!
Shallow embedding of the Gravwell ingest EntryWriter (src/entryWriter.go).

Bytes are modelled as Nat values; machine integers are Nat with explicit
truncation where the code depends on it.  The net.Conn transport is a pair
of byte lists: bytes written to the peer so far (sent) and bytes the peer
has made available for reading (recv).  A blocking read past the end of
recv is modelled as the read-deadline timeout error the Go code observes
in that situation.  The bufio.Writer is modelled with its Go semantics
over this reliable transport, plus a ghost counter of effective flushes
used only to state flush-observability properties.
-/

namespace Gravwell

/-- Constants from src/entryWriter.go. -/
def ACK_SIZE : Nat := 12

def ENTRY_HEADER_SIZE : Nat := 34

def READ_ENTRY_HEADER_SIZE : Nat := ENTRY_HEADER_SIZE + 12

def MAX_ENTRY_SIZE : Nat := 128 * 1024 * 1024

def WRITE_BUFFER_SIZE : Nat := 4 * 1024 * 1024

def MAX_WRITE_ERROR : Nat := 4

def NEW_ENTRY_MAGIC : Nat := 0xC7C95ACB

def FORCE_ACK_MAGIC : Nat := 0x1ADF7350

def CONFIRM_ENTRY_MAGIC : Nat := 0xF6E0307E

def MIN_UNCONFIRMED_COUNT : Nat := 64

def MAX_UNCONFIRMED_COUNT : Nat := 1024 * 4

def BUFFERED_ACK_READER_SIZE : Nat := ACK_SIZE * MAX_UNCONFIRMED_COUNT

/-- time.Duration is modelled as Int nanoseconds; CLOSING_SERVICE_ACK_TIMEOUT is 1s. -/
def CLOSING_SERVICE_ACK_TIMEOUT : Int := 1000000000

/-- Error values observable from the writer.  Go errors are compared by
identity in the code (errEntryNotFound) or only propagated, so an
enumeration is faithful. -/
inductive Err where
  | timeout
  | connClosed
  | failedWrite
  | invalidDuration
  | bufferFull
  | entryNotFound
  | failedConfirm (n : Nat)
  | encodeFail
deriving DecidableEq, Repr

deriving instance DecidableEq for Except

/-- Little-endian 4-byte encoding of a 32-bit value (binary.LittleEndian.PutUint32). -/
def le32 (x : Nat) : List Nat :=
  [x % 256, x / 256 % 256, x / 65536 % 256, x / 16777216 % 256]

/-- Little-endian 8-byte encoding of a 64-bit value (binary.LittleEndian.PutUint64). -/
def le64 (x : Nat) : List Nat :=
  [x % 256, x / 256 % 256, x / 65536 % 256, x / 16777216 % 256,
   x / 4294967296 % 256, x / 1099511627776 % 256,
   x / 281474976710656 % 256, x / 72057594037927936 % 256]

/-- binary.LittleEndian.Uint32 over the first 4 bytes of a slice. -/
def u32le (bs : List Nat) : Nat :=
  match bs with
  | b0 :: b1 :: b2 :: b3 :: _ => b0 + 256 * (b1 + 256 * (b2 + 256 * b3))
  | _ => 0

/-- binary.LittleEndian.Uint64 over the first 8 bytes of a slice. -/
def u64le (bs : List Nat) : Nat :=
  match bs with
  | b0 :: b1 :: b2 :: b3 :: b4 :: b5 :: b6 :: b7 :: _ =>
      b0 + 256 * (b1 + 256 * (b2 + 256 * (b3 + 256 * (b4 + 256 * (b5 + 256 * (b6 + 256 * b7))))))
  | _ => 0

/-- The external entry.Entry value (outside this repository): an opaque
fixed-size binary header plus an immutable data slice.  encodeOk records
whether the external EncodeHeader call succeeds on this entry. -/
structure Entry where
  header : List Nat
  data : List Nat
  encodeOk : Bool
deriving DecidableEq, Repr

/-- ent.EncodeHeader(buf): external to this repository; modelled as
producing the entry's fixed 34-byte header, or an error. -/
def encodeHeader (e : Entry) : Except Err (List Nat) :=
  if e.encodeOk then
    Except.ok ((e.header ++ List.replicate ENTRY_HEADER_SIZE 0).take ENTRY_HEADER_SIZE)
  else Except.error Err.encodeFail

/-- The net.Conn: bytes we have written, bytes available to read, and
whether the connection is open.  The reliable transport accepts every
write while open. -/
structure Conn where
  sent : List Nat
  recv : List Nat
  isOpen : Bool
deriving DecidableEq, Repr

/-- bufio.Writer state: buffered bytes, capacity, and a ghost counter of
effective flushes (flushes that moved bytes to the conn). -/
structure BWriter where
  buf : List Nat
  cap : Nat
  flushes : Nat
deriving DecidableEq, Repr

/-- bufio.Writer.Flush: a no-op on an empty buffer, otherwise writes the
buffered bytes to the conn (which errors when closed). -/
def bFlush (s : Conn × BWriter) : (Conn × BWriter) × Option Err :=
  if s.2.buf.length = 0 then (s, none)
  else if s.1.isOpen then
    (({ s.1 with sent := s.1.sent ++ s.2.buf },
      { s.2 with buf := [], flushes := s.2.flushes + 1 }), none)
  else (s, some Err.connClosed)

/-- bufio.Writer.Write with Go's semantics over this transport: buffer the
bytes when they fit; write directly to the conn on a large write with an
empty buffer; otherwise fill the buffer, flush it and place the rest. -/
def bWrite (s : Conn × BWriter) (p : List Nat) : (Conn × BWriter) × Nat × Option Err :=
  if p.length ≤ s.2.cap - s.2.buf.length then
    ((s.1, { s.2 with buf := s.2.buf ++ p }), p.length, none)
  else if s.2.buf.length = 0 then
    if s.1.isOpen then (({ s.1 with sent := s.1.sent ++ p }, s.2), p.length, none)
    else (s, 0, some Err.connClosed)
  else
    let fill := p.take (s.2.cap - s.2.buf.length)
    let rest := p.drop (s.2.cap - s.2.buf.length)
    match bFlush (s.1, { s.2 with buf := s.2.buf ++ fill }) with
    | (s1, some e) => (s1, fill.length, some e)
    | (s1, none) =>
      if rest.length ≤ s1.2.cap then
        ((s1.1, { s1.2 with buf := s1.2.buf ++ rest }), p.length, none)
      else if s1.1.isOpen then
        (({ s1.1 with sent := s1.1.sent ++ rest }, s1.2), p.length, none)
      else (s1, fill.length, some Err.connClosed)

/-- An io.Writer together with a Flush operation, the interface writeAll
is written against. -/
structure WriterOps (σ : Type) where
  write : σ → List Nat → σ × Nat × Option Err
  flush : σ → σ × Option Err

/-- The loop body of ew.writeAll, recursing on a fuel bound: each
continuing iteration writes at least one byte, so fuel equal to the
initial byte count is always sufficient and the fuel-exhaustion branch
coincides with the empty-remainder exit (writeAllLoop_fuel below shows
the fuel never matters when it covers the remainder). -/
def writeAllLoop {σ : Type} (w : WriterOps σ) : Nat → σ → List Nat → σ × Option Err
  | 0, s, _ => (s, none)
  | fuel + 1, s, rem =>
    if rem.length = 0 then (s, none)
    else
      match w.write s rem with
      | (s1, _, some e) => (s1, some e)
      | (s1, n, none) =>
        if n = 0 then (s1, some Err.failedWrite)
        else if rem.length ≤ n then (s1, none)
        else
          match w.flush s1 with
          | (s2, some e) => (s2, some e)
          | (s2, none) => writeAllLoop w fuel s2 (rem.drop n)

/-- ew.writeAll: write the remaining bytes in a loop; a 0-byte write with
no error is fatal, a partial write flushes and retries the rest. -/
def writeAll {σ : Type} (w : WriterOps σ) (s : σ) (rem : List Nat) : σ × Option Err :=
  writeAllLoop w rem.length s rem

/-- A scripted io.Writer for exercising writeAll: each Write call
accepts at most the next scripted count of bytes (everything once the
script is exhausted), records the accepted bytes, and counts flushes. -/
structure ScriptW where
  script : List Nat
  log : List Nat
  flushes : Nat
deriving DecidableEq, Repr

def scriptOps : WriterOps ScriptW :=
  { write := fun s p =>
      match s.script with
      | [] => ({ s with log := s.log ++ p }, p.length, none)
      | k :: rest =>
        ({ s with script := rest, log := s.log ++ p.take (min k p.length) },
         min k p.length, none)
    flush := fun s => ({ s with flushes := s.flushes + 1 }, none) }

/-- The writer side of the connection as a WriterOps instance. -/
def connOps : WriterOps (Conn × BWriter) :=
  { write := bWrite, flush := bFlush }

/-- An entry confirmation record: send-id paired with the entry. -/
structure Rec where
  sid : Nat
  ent : Entry
deriving DecidableEq, Repr

/-- The entry confirmation buffer.  Modelled from the spec: the
entryConfBuffer implementation is not part of src/, only its interface
(Add, Confirm, Count, Free, Full, Size, outstandingEntries) is visible
from entryWriter.go. -/
structure ECB where
  recs : List Rec
  capacity : Nat
  count : Nat
deriving DecidableEq, Repr

/-- Modelled from the spec: Confirm(id) finds the record whose send-id
equals id and removes it along with every earlier record, returning the
kept suffix and the dropped earlier records; when id is not present it
fails with EntryNotFound and the buffer is unchanged. -/
def confirmList : List Rec → Nat → Except Err (List Rec × List Rec)
  | [], _ => Except.error Err.entryNotFound
  | r :: rest, i =>
    if r.sid = i then Except.ok (rest, [])
    else
      match confirmList rest i with
      | Except.ok (kept, dropped) => Except.ok (kept, r :: dropped)
      | Except.error e => Except.error e

/-- Modelled from the spec: Add appends a record and fails when the
buffer is full (count caches the spec Count operation and is kept equal
to recs.length by every operation). -/
def ecbAdd (b : ECB) (r : Rec) : Except Err ECB :=
  if b.capacity ≤ b.count then Except.error Err.bufferFull
  else Except.ok { b with recs := b.recs ++ [r], count := b.count + 1 }

/-- Modelled from the spec: Confirm at the buffer level, updating the
cached count by the match and its dropped earlier records. -/
def ecbConfirm (b : ECB) (i : Nat) : Except Err ECB :=
  match confirmList b.recs i with
  | Except.ok (kept, dropped) =>
      Except.ok { b with recs := kept, count := b.count - (dropped.length + 1) }
  | Except.error e => Except.error e

/-- ecb.Full: no free slot remains. -/
def ecbFull (b : ECB) : Bool := b.capacity ≤ b.count

/-- ecb.Free: remaining open slots. -/
def ecbFree (b : ECB) : Nat := b.capacity - b.count

/-- ecb.outstandingEntries: in-order snapshot of unconfirmed entries. -/
def ecbOutstanding (b : ECB) : List Entry := b.recs.map Rec.ent

/-- The EntryWriter state.  The reusable scratch buffer buff is not
carried: every read of it in the Go code is preceded in the same
iteration by writes covering the bytes read, so its persistent contents
are never observable. -/
structure EW where
  conn : Conn
  bufw : BWriter
  ecb : ECB
  hot : Bool
  id : Nat
  ackTimeout : Int
deriving DecidableEq, Repr

/-- NewEntryWriter over an established connection. -/
def newEntryWriter (c : Conn) : EW :=
  { conn := c
    bufw := { buf := [], cap := WRITE_BUFFER_SIZE, flushes := 0 }
    ecb := { recs := [], capacity := MAX_UNCONFIRMED_COUNT, count := 0 }
    hot := true
    id := 1
    ackTimeout := CLOSING_SERVICE_ACK_TIMEOUT }

/-- ew.bIO.Flush at the writer level. -/
def ewFlush (st : EW) : EW × Option Err :=
  let r := bFlush (st.conn, st.bufw)
  ({ st with conn := r.1.1, bufw := r.1.2 }, r.2)

/-- ew.writeAll(b) at the writer level. -/
def ewWriteAll (st : EW) (p : List Nat) : EW × Option Err :=
  let r := writeAll connOps (st.conn, st.bufw) p
  ({ st with conn := r.1.1, bufw := r.1.2 }, r.2)

/-- The readAcks loop over the parts of the state it touches: connection
open flag, readable bytes (bAckReader.Buffered() is the length of recv:
every byte the peer sent is taken as already buffered), and the
confirmation records.  Each iteration reads a 12-byte window; a wrong
leading magic triggers the resync fallback, which issues ReadFull over
buff index range 8 to 16 (8 bytes) when the magic sits at offset 4, and
over buff index range 12 to 24 (12 bytes) when it sits at offset 8,
taking the id from the freshly read bytes in both cases.  A window with
no magic is discarded and the Go continue skips the blocking reset. -/
def readAcksCore (o : Bool) (recv : List Nat) (b : ECB) (blocking : Bool) :
    List Nat × ECB × Option Err :=
  if 0 < b.count ∧ (ACK_SIZE ≤ recv.length ∨ blocking = true) then
    if o = false then (recv, b, some Err.connClosed)
    else
      match recv with
      | b0 :: b1 :: b2 :: b3 :: b4 :: b5 :: b6 :: b7 :: b8 :: b9 :: b10 :: b11 :: rem =>
        if u32le [b0, b1, b2, b3] = CONFIRM_ENTRY_MAGIC then
          match ecbConfirm b (u64le [b4, b5, b6, b7, b8, b9, b10, b11]) with
          | Except.ok b1 => readAcksCore o rem b1 false
          | Except.error e =>
            if e = Err.entryNotFound then readAcksCore o rem b false
            else (rem, b, some e)
        else if u32le [b4, b5, b6, b7] = CONFIRM_ENTRY_MAGIC then
          match rem with
          | c0 :: c1 :: c2 :: c3 :: c4 :: c5 :: c6 :: c7 :: rem2 =>
            match ecbConfirm b (u64le [c0, c1, c2, c3, c4, c5, c6, c7]) with
            | Except.ok b1 => readAcksCore o rem2 b1 false
            | Except.error e =>
              if e = Err.entryNotFound then readAcksCore o rem2 b false
              else (rem2, b, some e)
          | _ => ([], b, some Err.timeout)
        else if u32le [b8, b9, b10, b11] = CONFIRM_ENTRY_MAGIC then
          match rem with
          | c0 :: c1 :: c2 :: c3 :: c4 :: c5 :: c6 :: c7 :: _ :: _ :: _ :: _ :: rem2 =>
            match ecbConfirm b (u64le [c0, c1, c2, c3, c4, c5, c6, c7]) with
            | Except.ok b1 => readAcksCore o rem2 b1 false
            | Except.error e =>
              if e = Err.entryNotFound then readAcksCore o rem2 b false
              else (rem2, b, some e)
          | _ => ([], b, some Err.timeout)
        else readAcksCore o rem b blocking
      | _ => ([], b, some Err.timeout)
  else (recv, b, none)

/-- ew.readAcks(blocking). -/
def readAcks (st : EW) (blocking : Bool) : EW × Option Err :=
  let r := readAcksCore st.conn.isOpen st.conn.recv st.ecb blocking
  ({ st with conn := { st.conn with recv := r.1 }, ecb := r.2.1 }, r.2.2)

/-- Error propagation as in the Go statements of the form
if err = f(); err != nil then return err. -/
def step (r : EW × Option Err) (f : EW → EW × Option Err) : EW × Option Err :=
  match r with
  | (s, some e) => (s, some e)
  | (s, none) => f s

/-- ew.throwAckSync: write the 4-byte FORCE_ACK magic and flush it out. -/
def throwAckSync (st : EW) : EW × Option Err :=
  step (ewWriteAll st (le32 FORCE_ACK_MAGIC)) ewFlush

/-- ew.serviceAcks(blocking): flush pending output when blocking, read
acks, and when the buffer is still full force a sync and re-read. -/
def serviceAcks (st : EW) (blocking : Bool) : EW × Option Err :=
  step (if blocking = true ∧ 0 < st.bufw.buf.length then ewFlush st else (st, none))
    (fun st1 =>
      step (readAcks st1 blocking) (fun st2 =>
        if ecbFull st2.ecb then step (throwAckSync st2) (fun st3 => readAcks st3 true)
        else (st2, none)))

/-- bufio.Writer.Available as seen by writeEntry. -/
def bAvailable (b : BWriter) : Nat := b.cap - b.buf.length

/-- The leading block of writeEntry: when the confirmation buffer is full
the code flushes the buffered writer (without recording the flush in the
returned flag) and services acks with blocking set. -/
def writeEntryFull (st : EW) : EW × Option Err :=
  if ecbFull st.ecb then step (ewFlush st) (fun st1 => serviceAcks st1 true)
  else (st, none)

/-- writeEntry up to and including the header write: full-buffer
handling, the frame assembly (magic, encoded header, send-id, all
little-endian into the scratch buffer) and the writeAll of the 46-byte
header frame. -/
def writeEntryPre (st : EW) (e : Entry) : EW × Option Err :=
  step (writeEntryFull st) (fun st1 =>
    match encodeHeader e with
    | Except.error err => (st1, some err)
    | Except.ok hdr => ewWriteAll st1 (le32 NEW_ENTRY_MAGIC ++ hdr ++ le64 st1.id))

/-- The middle of writeEntry: the pre-payload flush when dataBig (the
payload is longer than the available buffered space), the writeAll of the
payload, and the sync flush when the caller requested one. -/
def writeEntryMid (st1 : EW) (e : Entry) (dataBig flush : Bool) : EW × Option Err :=
  step (if dataBig then ewFlush st1 else (st1, none)) (fun st2 =>
    step (ewWriteAll st2 e.data) (fun st3 =>
      if flush then ewFlush st3 else (st3, none)))

/-- ew.writeEntry(ent, flush): returns the flushed flag and the error.
The flag is set only by the pre-payload flush (data longer than the
available buffered space) and by the requested sync flush, exactly as in
the source where flushed is assigned in those two places only. -/
def writeEntry (st : EW) (e : Entry) (flush : Bool) : EW × Except Err Bool :=
  match writeEntryPre st e with
  | (st1, some err) => (st1, Except.error err)
  | (st1, none) =>
    match writeEntryMid st1 e (decide (bAvailable st1.bufw < e.data.length)) flush with
    | (st4, some err) => (st4, Except.error err)
    | (st4, none) =>
      match ecbAdd st4.ecb { sid := st4.id, ent := e } with
      | Except.error err => (st4, Except.error err)
      | Except.ok ecb1 =>
        ({ st4 with ecb := ecb1, id := st4.id + 1 },
         Except.ok (decide (bAvailable st1.bufw < e.data.length) || flush))

/-- ew.writeFlush: service acks (blocking exactly when the confirmation
buffer is full) and then write the entry, discarding the flushed flag. -/
def writeFlush (st : EW) (e : Entry) (flush : Bool) : EW × Option Err :=
  step (serviceAcks st (ecbFull st.ecb)) (fun st1 =>
    match writeEntry st1 e flush with
    | (st2, Except.error err) => (st2, some err)
    | (st2, Except.ok _) => (st2, none))

/-- ew.Write(ent). -/
def writeOp (st : EW) (e : Entry) : EW × Option Err := writeFlush st e false

/-- ew.WriteSync(ent). -/
def writeSync (st : EW) (e : Entry) : EW × Option Err := writeFlush st e true

/-- ew.WriteWithHint(ent): like WriteSync but the flushed flag is
returned to the caller. -/
def writeWithHint (st : EW) (e : Entry) : EW × Except Err Bool :=
  match serviceAcks st (ecbFull st.ecb) with
  | (st1, some err) => (st1, Except.error err)
  | (st1, none) => writeEntry st1 e true

/-- ew.WriteBatch(ents): write each entry without a per-entry sync
flush, stopping at the first error. -/
def writeBatch (st : EW) : List Entry → EW × Option Err
  | [] => (st, none)
  | e :: rest =>
    match writeEntry st e false with
    | (st1, Except.error err) => (st1, some err)
    | (st1, Except.ok _) => writeBatch st1 rest

/-- The 46-byte frame writeEntry assembles for an entry at a given
send-id: NEW_ENTRY_MAGIC, the encoded (zero-padded) header, and the id,
all little-endian. -/
def entryFrame (e : Entry) (i : Nat) : List Nat :=
  le32 NEW_ENTRY_MAGIC ++
    ((e.header ++ List.replicate ENTRY_HEADER_SIZE 0).take ENTRY_HEADER_SIZE) ++ le64 i

/-- The confirmation records a run of entries produces when added starting
at a given send-id. -/
def recsFrom (i : Nat) : List Entry → List Rec
  | [] => []
  | e :: rest => { sid := i, ent := e } :: recsFrom (i + 1) rest

/-- Total bytes a batch pushes through the buffered writer: one 46-byte
header frame plus the payload per entry. -/
def batchBytes (ents : List Entry) : Nat :=
  (ents.map (fun e => READ_ENTRY_HEADER_SIZE + e.data.length)).sum

/-- ew.Ack: a no-op when nothing is outstanding, otherwise one blocking
ack service. -/
def ackOp (st : EW) : EW × Option Err :=
  if st.ecb.count = 0 then (st, none) else serviceAcks st true

/-- ew.OpenSlots. -/
def openSlots (st : EW) : Nat := ecbFree st.ecb

/-- ew.OptimalBatchWriteSize. -/
def optimalBatchWriteSize (st : EW) : Nat := st.ecb.capacity

/-- ew.outstandingEntries. -/
def outstandingEntries (st : EW) : List Entry := ecbOutstanding st.ecb

/-- ew.OverrideAckTimeout(t): the new duration is stored before it is
validated. -/
def overrideAckTimeout (st : EW) (t : Int) : EW × Option Err :=
  if t ≤ 0 then ({ st with ackTimeout := t }, some Err.invalidDuration)
  else ({ st with ackTimeout := t }, none)

/-- The drain loop of forceAckNoLock, recursing on a fuel bound: while
entries are outstanding, service acks blocking under the ack timeout
read deadline (deadline bookkeeping on the conn is modelled as always
succeeding).  The guard on the recursive call only requires that bytes
were consumed, which a successful blocking service with outstanding
entries always does (it must issue at least one 12-byte ReadFull), so
fuel one larger than the readable byte count always suffices and the
fuel-exhaustion branch is never taken from forceAck. -/
def forceAckLoopF : Nat → EW → EW × Option Err
  | 0, st => (st, none)
  | fuel + 1, st =>
    if 0 < st.ecb.count then
      match serviceAcks st true with
      | (st1, some e) => (st1, some e)
      | (st1, none) =>
        if st1.conn.recv.length < st.conn.recv.length then forceAckLoopF fuel st1
        else (st1, none)
    else (st, none)

def forceAckLoop (st : EW) : EW × Option Err :=
  forceAckLoopF (st.conn.recv.length + 1) st

/-- ew.forceAckNoLock: throw the force-ack sync, drain, and afterwards
report any remaining count (the Failed to confirm n entries error). -/
def forceAck (st : EW) : EW × Option Err :=
  match throwAckSync st with
  | (st1, some e) => (st1, some e)
  | (st1, none) =>
    match forceAckLoop st1 with
    | (st2, some e) => (st2, some e)
    | (st2, none) =>
      if 0 < st2.ecb.count then (st2, some (Err.failedConfirm st2.ecb.count))
      else (st2, none)

/-- ew.Close: force an ack drain, then liberally pull any remaining acks
(SetReadDeadline on the open conn is modelled as succeeding), close the
connection and mark the writer non-hot; the error from the final
readAcks, or from the drain, is returned. -/
def closeOp (st : EW) : EW × Option Err :=
  match forceAck st with
  | (st1, none) =>
    let r := readAcks st1 true
    ({ r.1 with conn := { r.1.conn with isOpen := false }, hot := false }, r.2)
  | (st1, some e) =>
    ({ st1 with conn := { st1.conn with isOpen := false }, hot := false }, some e)

/-- A sequence of public Write calls, stopping at the first failure. -/
def writeMany : EW → List Entry → EW × Option Err
  | st, [] => (st, none)
  | st, e :: rest =>
    match writeFlush st e false with
    | (st1, none) => writeMany st1 rest
    | (st1, some err) => (st1, some err)

/-- The send-ids assigned by a sequence of Writes: each successful
writeEntry stamps the current ew.id into the frame before incrementing
it, so the id assigned to an entry is the id field at call time. -/
def assignedIds : EW → List Entry → List Nat
  | _, [] => []
  | st, e :: rest =>
    match writeFlush st e false with
    | (st1, none) => st.id :: assignedIds st1 rest
    | (_, some _) => []

/-- A 12-byte Confirm frame as the indexer sends it. -/
def confirmFrame (i : Nat) : List Nat := le32 CONFIRM_ENTRY_MAGIC ++ le64 i

/-- An open connection with nothing received yet. -/
def liveConn : Conn := { sent := [], recv := [], isOpen := true }

/-- A 1-byte entry whose external header encoding succeeds. -/
def tinyEntry : Entry := { header := [], data := [7], encodeOk := true }

/-- An entry whose external EncodeHeader call fails. -/
def badEntry : Entry := { header := [], data := [9], encodeOk := false }

/-- Claim C1 input: two outstanding entries, and an ack stream holding 4
garbage bytes followed by the two valid Confirm frames. -/
def c1state : EW :=
  { newEntryWriter
      { sent := [], recv := [255, 255, 255, 255] ++ confirmFrame 1 ++ confirmFrame 2,
        isOpen := true } with
    ecb := { recs := [{ sid := 1, ent := tinyEntry }, { sid := 2, ent := tinyEntry }],
             capacity := MAX_UNCONFIRMED_COUNT, count := 2 }
    id := 3 }

/-- Claim C4 input: one outstanding entry, a peer that never replies, and
a 50 ms ack timeout. -/
def c4state : EW :=
  { newEntryWriter liveConn with
    ecb := { recs := [{ sid := 1, ent := tinyEntry }], capacity := MAX_UNCONFIRMED_COUNT,
             count := 1 }
    id := 2
    ackTimeout := 50000000 }

/-- Claim C5 input: the confirmation buffer is full (ids 1 to 4096, as
after 4095 WriteSync calls and one Write with no acks yet), the buffered
writer still holds the last 47-byte frame, and a Confirm for id 1 has
just arrived. -/
def c5tail : List Rec :=
  (List.range' 2 (MAX_UNCONFIRMED_COUNT - 1)).map (fun i => { sid := i, ent := tinyEntry })

def c5recs : List Rec := { sid := 1, ent := tinyEntry } :: c5tail

def c5state : EW :=
  { conn := { sent := [], recv := confirmFrame 1, isOpen := true }
    bufw := { buf := List.replicate 47 0, cap := WRITE_BUFFER_SIZE, flushes := 0 }
    ecb := { recs := c5recs, capacity := MAX_UNCONFIRMED_COUNT, count := 4096 }
    hot := true
    id := MAX_UNCONFIRMED_COUNT + 1
    ackTimeout := CLOSING_SERVICE_ACK_TIMEOUT }

/-- Claim C7 counterexample input: the confirmation buffer is full, the
buffered writer still holds a 47-byte frame, and the peer is silent (no
ack bytes readable), so the forced ack service inside writeEntry times
out. -/
def c7state : EW :=
  { c5state with conn := { sent := [], recv := [], isOpen := true } }

/-- Claim C3 input: the writer state left behind by a completed Close on
a fresh writer. -/
def closedState : EW := (closeOp (newEntryWriter liveConn)).1


/-! Theorems.  Helper lemmas come first, then one theorem per claim. -/

theorem step_id (r : EW × Option Err) (f : EW → EW × Option Err)
    (hf : ∀ s, (f s).1.id = s.id) : (step r f).1.id = r.1.id := by
  rcases r with ⟨s, e⟩
  cases e
  · exact hf s
  · rfl

theorem ewFlush_id (st : EW) : (ewFlush st).1.id = st.id := rfl

theorem ewWriteAll_id (st : EW) (p : List Nat) : (ewWriteAll st p).1.id = st.id := rfl

theorem readAcks_id (st : EW) (b : Bool) : (readAcks st b).1.id = st.id := rfl

theorem ifFlush_id (c : Bool) (st : EW) :
    (if c then ewFlush st else (st, none)).1.id = st.id := by
  cases c
  · rfl
  · exact ewFlush_id st

theorem throwAckSync_id (st : EW) : (throwAckSync st).1.id = st.id :=
  (step_id _ _ ewFlush_id).trans (ewWriteAll_id st _)

theorem serviceAcks_id (st : EW) (b : Bool) : (serviceAcks st b).1.id = st.id := by
  unfold serviceAcks
  have hg : ∀ s2 : EW,
      ((if ecbFull s2.ecb then step (throwAckSync s2) (fun st3 => readAcks st3 true)
        else (s2, none))).1.id = s2.id := by
    intro s2
    split
    · exact (step_id _ _ (fun s => readAcks_id s true)).trans (throwAckSync_id s2)
    · rfl
  refine (step_id _ _ (fun s1 => (step_id _ _ hg).trans (readAcks_id s1 b))).trans ?_
  split
  · exact ewFlush_id st
  · rfl

theorem writeEntryFull_id (st : EW) : (writeEntryFull st).1.id = st.id := by
  unfold writeEntryFull
  split
  · exact (step_id _ _ (fun s => serviceAcks_id s true)).trans (ewFlush_id st)
  · rfl

theorem writeEntryPre_id (st : EW) (e : Entry) : (writeEntryPre st e).1.id = st.id := by
  unfold writeEntryPre
  refine (step_id _ _ ?_).trans (writeEntryFull_id st)
  intro s
  cases encodeHeader e
  · rfl
  · exact ewWriteAll_id s _

theorem writeEntryMid_id (s1 : EW) (e : Entry) (c f : Bool) :
    (writeEntryMid s1 e c f).1.id = s1.id := by
  unfold writeEntryMid
  refine (step_id _ _ ?_).trans (ifFlush_id c s1)
  intro s2
  exact (step_id _ _ (fun s3 => ifFlush_id f s3)).trans (ewWriteAll_id s2 _)

theorem writeEntry_ok_id (st : EW) (e : Entry) (f : Bool) (stf : EW) (fl : Bool)
    (h : writeEntry st e f = (stf, Except.ok fl)) : stf.id = st.id + 1 := by
  unfold writeEntry at h
  split at h
  · simp_all
  next st1 hpre =>
    have h1 : st1.id = st.id :=
      (congrArg (fun q : EW × Option Err => q.1.id) hpre).symm.trans (writeEntryPre_id st e)
    split at h
    · simp_all
    next st4 hmid =>
      have h4 : st4.id = st1.id :=
        (congrArg (fun q : EW × Option Err => q.1.id) hmid).symm.trans
          (writeEntryMid_id st1 e _ f)
      split at h
      · simp_all
      next ecb1 hadd =>
        cases h
        simp [h4, h1]

theorem writeFlush_ok_id (st : EW) (e : Entry) (f : Bool) (stf : EW)
    (h : writeFlush st e f = (stf, none)) : stf.id = st.id + 1 := by
  unfold writeFlush at h
  rcases hsv : serviceAcks st (ecbFull st.ecb) with ⟨s, e1⟩
  rw [hsv] at h
  have hs : s.id = st.id := by
    have h0 := serviceAcks_id st (ecbFull st.ecb)
    rw [hsv] at h0
    exact h0
  cases e1
  · simp only [step] at h
    split at h
    · simp_all
    next st2 b2 h2 =>
      cases h
      rw [writeEntry_ok_id s e f stf b2 h2, hs]
  · simp only [step] at h
    simp at h

theorem writeEntry_sync_flag (st : EW) (e : Entry) (stf : EW) (fl : Bool)
    (h : writeEntry st e true = (stf, Except.ok fl)) : fl = true := by
  unfold writeEntry at h
  split at h
  · simp_all
  next st1 hpre =>
    split at h
    · simp_all
    next st4 hmid =>
      split at h
      · simp_all
      next ecb1 hadd =>
        cases h
        simp

/-- Claim C1.  The spec says the resync fallback reads 4 more bytes when
the Confirm magic sits at offset 4 of the 12-byte window (8 more at
offset 8), takes the send-id from the 8 bytes immediately after the
magic, and therefore parses any ack stream whose valid Confirm frames
are separated by 0 to 8 arbitrary bytes.  The code (and its own inline
comments notwithstanding) reads 8 bytes into buff range 8 to 16 in the
offset-4 case, so on a stream of 4 garbage bytes followed by Confirm(1)
and Confirm(2) it assembles the id from the last 4 id bytes of the first
frame and the magic of the second, confirming neither: readAcks returns
with both records still unconfirmed. -/
theorem c1_resync_bug :
    (readAcks c1state true).2 = none ∧
    (readAcks c1state true).1.ecb.recs =
      [{ sid := 1, ent := tinyEntry }, { sid := 2, ent := tinyEntry }] := by
  constructor
  · rfl
  · rfl

/-- Claim C3, counterexample.  The claim says every public operation
fails once Close has completed.  On the state left behind by Close, the
writer is indeed non-hot, yet OverrideAckTimeout with a positive
duration returns no error and Ack returns no error: no public operation
consults the hot flag. -/
theorem c3_hot_counterexample :
    closedState.hot = false ∧ (overrideAckTimeout closedState 5).2 = none ∧
    ackOp closedState = (closedState, none) := by
  refine ⟨rfl, ?_, ?_⟩
  · rfl
  · rfl

/-- Claim C3, amended: Close marks the writer non-hot, but no public
operation checks the hot flag; after Close, OverrideAckTimeout with a
positive duration and Ack with no outstanding entries succeed, and
operations fail only when they touch the closed connection. -/
theorem c3_hot_amended (st : EW) (t : Int) (hhot : st.hot = false) (ht : 0 < t) :
    (overrideAckTimeout st t).2 = none ∧ (st.ecb.count = 0 → ackOp st = (st, none)) := by
  constructor
  · unfold overrideAckTimeout
    rw [if_neg (by omega)]
  · intro hr
    unfold ackOp
    rw [if_pos hr]

theorem c3_hot_amended_witness :
    (overrideAckTimeout closedState 5).2 = none ∧
    (closedState.ecb.count = 0 → ackOp closedState = (closedState, none)) :=
  c3_hot_amended closedState 5 (by decide) (by decide)

/-- Claim C4.  The spec says that when the drain loop of ForceAck ends
with entries still outstanding (peer never replies, read deadline
expires) the call returns the error enumerating the unconfirmed count.
In the code the loop only exits normally when the count is zero, so the
Failed to confirm n entries branch after it is unreachable (the unused
isTimeout helper hints at the missing break on timeout): with one
outstanding entry and a silent peer, forceAck returns the transport
timeout error instead, and the entry is still outstanding. -/
theorem c4_forceack_timeout_bug :
    (forceAck c4state).2 = some Err.timeout ∧
    (forceAck c4state).2 ≠ some (Err.failedConfirm 1) ∧
    (forceAck c4state).1.ecb.recs = [{ sid := 1, ent := tinyEntry }] := by
  exact ⟨rfl, by decide, rfl⟩

/-- Claim C9: OverrideAckTimeout stores the new duration before
validating it, so a non-positive duration is installed even though the
call reports the invalid duration error. -/
theorem c9_override_stores_before_validate (st : EW) (t : Int) (h : t ≤ 0) :
    overrideAckTimeout st t = ({ st with ackTimeout := t }, some Err.invalidDuration) ∧
    (overrideAckTimeout st t).1.ackTimeout = t := by
  unfold overrideAckTimeout
  rw [if_pos h]
  exact ⟨rfl, rfl⟩

theorem c9_override_witness :
    overrideAckTimeout (newEntryWriter liveConn) (-5) =
      ({ newEntryWriter liveConn with ackTimeout := -5 }, some Err.invalidDuration) ∧
    (overrideAckTimeout (newEntryWriter liveConn) (-5)).1.ackTimeout = -5 :=
  c9_override_stores_before_validate (newEntryWriter liveConn) (-5) (by decide)

/-- Claim C10: WriteWithHint always requests a sync flush, and writeEntry
sets the flushed flag unconditionally on the sync path, so every
successful WriteWithHint returns true. -/
theorem c10_hint_always_true (st : EW) (e : Entry) (stf : EW) (b : Bool)
    (h : writeWithHint st e = (stf, Except.ok b)) : b = true := by
  unfold writeWithHint at h
  split at h
  · simp_all
  next st1 h1 => exact writeEntry_sync_flag st1 e stf b h

theorem c10_hint_witness :
    (writeWithHint (newEntryWriter liveConn) tinyEntry).2 = Except.ok true ∧ true = true :=
  ⟨by decide,
   c10_hint_always_true (newEntryWriter liveConn) tinyEntry
     (writeWithHint (newEntryWriter liveConn) tinyEntry).1 true (by decide)⟩

/-- A concrete confirmation buffer for the C2 witness. -/
def c2buf : List Rec :=
  [{ sid := 1, ent := tinyEntry }, { sid := 3, ent := tinyEntry }, { sid := 5, ent := tinyEntry }]

/-- Claim C2 (spec-modelled: the entryConfBuffer implementation is not
under src/).  For a buffer whose records carry strictly increasing
send-ids: when a record with send-id i is present, Confirm succeeds and
removes exactly that record together with every record with a smaller
send-id and no others (the kept records are exactly those with larger
ids, the dropped ones exactly those with smaller ids, and both come from
the buffer); when no record carries i, Confirm fails with EntryNotFound,
leaving the buffer unchanged (the model returns the error without
producing a new buffer). -/
theorem c2_confirm_semantics (l : List Rec) (i : Nat)
    (hs : l.Pairwise (fun a b => a.sid < b.sid)) :
    ((∃ r ∈ l, r.sid = i) →
      ∃ kept dropped, confirmList l i = Except.ok (kept, dropped) ∧
        (∀ r ∈ kept, r ∈ l ∧ i < r.sid) ∧
        (∀ r ∈ dropped, r ∈ l ∧ r.sid < i) ∧
        (∀ r ∈ l, (i < r.sid → r ∈ kept) ∧ (r.sid < i → r ∈ dropped))) ∧
    ((∀ r ∈ l, r.sid ≠ i) → confirmList l i = Except.error Err.entryNotFound) := by
  induction l with
  | nil =>
    constructor
    · rintro ⟨r, hr, -⟩
      cases hr
    · intro
      rfl
  | cons a rest ih =>
    obtain ⟨ha, hrest⟩ := List.pairwise_cons.mp hs
    obtain ⟨ih1, ih2⟩ := ih hrest
    constructor
    · rintro ⟨r, hr, hri⟩
      by_cases hai : a.sid = i
      · refine ⟨rest, [], by simp [confirmList, hai], ?_, ?_, ?_⟩
        · intro x hx
          exact ⟨List.mem_cons_of_mem _ hx, hai ▸ ha x hx⟩
        · intro x hx
          cases hx
        · intro x hx
          rcases List.mem_cons.mp hx with h1 | h1
          · subst h1
            constructor
            · intro hlt
              omega
            · intro hlt
              omega
          · constructor
            · intro
              exact h1
            · intro hlt
              have := ha x h1
              omega
      · have hrrest : r ∈ rest := by
          rcases List.mem_cons.mp hr with h1 | h1
          · subst h1
            exact absurd hri hai
          · exact h1
        obtain ⟨kept, dropped, hcl, hk, hd, hcompl⟩ := ih1 ⟨r, hrrest, hri⟩
        have hasmall : a.sid < i := by
          have := ha r hrrest
          omega
        refine ⟨kept, a :: dropped, by simp [confirmList, hai, hcl], ?_, ?_, ?_⟩
        · intro x hx
          obtain ⟨hx1, hx2⟩ := hk x hx
          exact ⟨List.mem_cons_of_mem _ hx1, hx2⟩
        · intro x hx
          rcases List.mem_cons.mp hx with h1 | h1
          · subst h1
            exact ⟨List.mem_cons_self _ _, hasmall⟩
          · obtain ⟨hx1, hx2⟩ := hd x h1
            exact ⟨List.mem_cons_of_mem _ hx1, hx2⟩
        · intro x hx
          rcases List.mem_cons.mp hx with h1 | h1
          · subst h1
            constructor
            · intro hlt
              omega
            · intro
              exact List.mem_cons_self _ _
          · obtain ⟨hc1, hc2⟩ := hcompl x h1
            exact ⟨hc1, fun h => List.mem_cons_of_mem _ (hc2 h)⟩
    · intro hne
      have hr : confirmList rest i = Except.error Err.entryNotFound :=
        ih2 (fun r hrm => hne r (List.mem_cons_of_mem _ hrm))
      have hai : a.sid ≠ i := hne a (List.mem_cons_self _ _)
      simp [confirmList, hai, hr]

theorem c2_confirm_semantics_witness :
    ((∃ r ∈ c2buf, r.sid = 3) →
      ∃ kept dropped, confirmList c2buf 3 = Except.ok (kept, dropped) ∧
        (∀ r ∈ kept, r ∈ c2buf ∧ 3 < r.sid) ∧
        (∀ r ∈ dropped, r ∈ c2buf ∧ r.sid < 3) ∧
        (∀ r ∈ c2buf, (3 < r.sid → r ∈ kept) ∧ (r.sid < 3 → r ∈ dropped))) ∧
    ((∀ r ∈ c2buf, r.sid ≠ 3) → confirmList c2buf 3 = Except.error Err.entryNotFound) :=
  c2_confirm_semantics c2buf 3 (by decide)

theorem pair_eq {α β : Type} {p : α × β} {a : α} {b : β} (h1 : p.1 = a) (h2 : p.2 = b) :
    p = (a, b) := by
  rcases p with ⟨x, y⟩
  cases h1
  cases h2
  rfl

theorem ew_eq {a b : EW} (h1 : a.conn = b.conn) (h2 : a.bufw = b.bufw) (h3 : a.ecb = b.ecb)
    (h4 : a.hot = b.hot) (h5 : a.id = b.id) (h6 : a.ackTimeout = b.ackTimeout) : a = b := by
  cases a
  cases b
  cases h1
  cases h2
  cases h3
  cases h4
  cases h5
  cases h6
  rfl

theorem step_none_eq (r : EW × Option Err) (f : EW → EW × Option Err) (h : r.2 = none) :
    step r f = f r.1 := by
  rcases r with ⟨s, e⟩
  cases e
  · rfl
  · simp at h

theorem writeAll_fits (s : Conn × BWriter) (p : List Nat) (h0 : ¬ p.length = 0)
    (hfit : p.length ≤ s.2.cap - s.2.buf.length) :
    writeAll connOps s p = ((s.1, { s.2 with buf := s.2.buf ++ p }), none) := by
  obtain ⟨k, hk⟩ : ∃ k, p.length = k + 1 := ⟨p.length - 1, by omega⟩
  have hw : connOps.write s p = ((s.1, { s.2 with buf := s.2.buf ++ p }), p.length, none) := by
    show bWrite s p = _
    unfold bWrite
    rw [if_pos hfit]
  unfold writeAll
  rw [hk]
  simp only [writeAllLoop, hw, h0, if_false, le_refl, if_true, ite_false, ite_true]

theorem ewWriteAll_fits (st : EW) (p : List Nat) (h0 : ¬ p.length = 0)
    (hfit : p.length ≤ st.bufw.cap - st.bufw.buf.length) :
    ewWriteAll st p =
      ({ st with bufw := { st.bufw with buf := st.bufw.buf ++ p } }, none) := by
  unfold ewWriteAll
  rw [writeAll_fits (st.conn, st.bufw) p h0 hfit]

set_option maxRecDepth 4000 in
/-- Claim C5, counterexample.  The claim says writeEntry returns flushed
true iff any flush happened during the call, including the one forced by
a full confirmation buffer.  On a full buffer with 47 bytes still
buffered and a Confirm(1) available, writeEntry flushes the buffered
writer (the flush counter rises and the buffered bytes reach the
connection) yet succeeds returning flushed = false. -/
theorem c5_flushed_counterexample :
    (writeEntry c5state tinyEntry false).2 = Except.ok false ∧
    (writeEntry c5state tinyEntry false).1.bufw.flushes = c5state.bufw.flushes + 1 ∧
    (writeEntry c5state tinyEntry false).1.conn.sent =
      c5state.conn.sent ++ List.replicate 47 0 := by
  exact ⟨rfl, rfl, rfl⟩

/-- Claim C5, amended: writeEntry returns flushed = true iff the caller
requested a sync flush or the pre-payload flush fired (the payload being
longer than the space available after the header write); the flush
forced by a full confirmation buffer, flushes inside ack servicing, and
flushes inside writeAll do not set the flag. -/
theorem c5_flushed_amended (st : EW) (e : Entry) (f : Bool) (st1 stf : EW) (fl : Bool)
    (hpre : writeEntryPre st e = (st1, none))
    (h : writeEntry st e f = (stf, Except.ok fl)) :
    fl = (decide (bAvailable st1.bufw < e.data.length) || f) := by
  unfold writeEntry at h
  split at h
  next _ hpre2 =>
    rw [hpre2] at hpre
    simp at hpre
  next st2 hpre2 =>
    rw [hpre2] at hpre
    cases hpre
    split at h
    · simp_all
    next st4 hmid =>
      split at h
      · simp_all
      next ecb1 hadd =>
        cases h
        rfl

def c5wState : EW := newEntryWriter liveConn

def c5wPre : EW := (writeEntryPre c5wState tinyEntry).1

def c5wFin : EW := (writeEntry c5wState tinyEntry true).1

theorem c5_flushed_amended_witness :
    writeEntryPre c5wState tinyEntry = (c5wPre, none) ∧
    writeEntry c5wState tinyEntry true = (c5wFin, Except.ok true) ∧
    true = (decide (bAvailable c5wPre.bufw < tinyEntry.data.length) || true) :=
  ⟨by decide, by decide,
   c5_flushed_amended c5wState tinyEntry true c5wPre c5wFin true (by decide) (by decide)⟩

theorem c6_aux (ents : List Entry) : ∀ st : EW, (writeMany st ents).2 = none →
    assignedIds st ents = List.range' st.id ents.length := by
  induction ents with
  | nil =>
    intro st h
    rfl
  | cons e rest ih =>
    intro st h
    unfold writeMany at h
    unfold assignedIds
    rcases hw : writeFlush st e false with ⟨st1, err⟩
    simp only [hw] at h ⊢
    cases err with
    | none =>
      replace h : (writeMany st1 rest).2 = none := h
      show st.id :: assignedIds st1 rest = List.range' st.id (e :: rest).length
      rw [ih st1 h, writeFlush_ok_id st e false st1 hw]
      rfl
    | some e2 =>
      replace h : (some e2 : Option Err) = none := h
      simp at h

/-- Claim C6: for every sequence of successful Writes on a freshly
constructed EntryWriter, the send-ids assigned are 1, 2, 3, ...: a
strictly increasing sequence starting at 1, incremented by exactly one
per successfully written entry. -/
theorem c6_monotonic_ids (c : Conn) (ents : List Entry)
    (h : (writeMany (newEntryWriter c) ents).2 = none) :
    assignedIds (newEntryWriter c) ents = List.range' 1 ents.length :=
  c6_aux ents (newEntryWriter c) h

theorem c6_monotonic_ids_witness :
    (writeMany (newEntryWriter liveConn) [tinyEntry, tinyEntry]).2 = none ∧
    assignedIds (newEntryWriter liveConn) [tinyEntry, tinyEntry] = List.range' 1 2 :=
  ⟨by decide, c6_monotonic_ids liveConn [tinyEntry, tinyEntry] (by decide)⟩

theorem writeAllLoop_fuel {σ : Type} (w : WriterOps σ) :
    ∀ f1 : Nat, ∀ (f2 : Nat) (s : σ) (rem : List Nat), rem.length ≤ f1 → rem.length ≤ f2 →
      writeAllLoop w f1 s rem = writeAllLoop w f2 s rem := by
  intro f1
  induction f1 with
  | zero =>
    intro f2 s rem h1 h2
    have hz : rem.length = 0 := by omega
    cases f2 with
    | zero => rfl
    | succ f2 =>
      show (s, none) = writeAllLoop w (f2 + 1) s rem
      unfold writeAllLoop
      rw [if_pos hz]
  | succ f1 ih =>
    intro f2 s rem h1 h2
    cases f2 with
    | zero =>
      have hz : rem.length = 0 := by omega
      show writeAllLoop w (f1 + 1) s rem = (s, none)
      unfold writeAllLoop
      rw [if_pos hz]
    | succ f2 =>
      unfold writeAllLoop
      by_cases hz : rem.length = 0
      · rw [if_pos hz, if_pos hz]
      · rw [if_neg hz, if_neg hz]
        rcases hw : w.write s rem with ⟨s1, n, e⟩
        cases e with
        | some err => rfl
        | none =>
          show (if n = 0 then (s1, some Err.failedWrite)
                else if rem.length ≤ n then (s1, none)
                else match w.flush s1 with
                     | (s2, some e) => (s2, some e)
                     | (s2, none) => writeAllLoop w f1 s2 (rem.drop n)) =
               (if n = 0 then (s1, some Err.failedWrite)
                else if rem.length ≤ n then (s1, none)
                else match w.flush s1 with
                     | (s2, some e) => (s2, some e)
                     | (s2, none) => writeAllLoop w f2 s2 (rem.drop n))
          by_cases hn : n = 0
          · rw [if_pos hn, if_pos hn]
          · rw [if_neg hn, if_neg hn]
            by_cases hle : rem.length ≤ n
            · rw [if_pos hle, if_pos hle]
            · rw [if_neg hle, if_neg hle]
              rcases hf : w.flush s1 with ⟨s2, ef⟩
              cases ef with
              | some err => rfl
              | none =>
                show writeAllLoop w f1 s2 (rem.drop n) = writeAllLoop w f2 s2 (rem.drop n)
                exact ih f2 s2 (rem.drop n)
                  (by simp only [List.length_drop]; omega)
                  (by simp only [List.length_drop]; omega)

theorem writeAllLoop_eq_writeAll {σ : Type} (w : WriterOps σ) (f : Nat) (s : σ)
    (rem : List Nat) (h : rem.length ≤ f) : writeAllLoop w f s rem = writeAll w s rem :=
  writeAllLoop_fuel w f rem.length s rem h (le_refl _)

theorem writeAll_zero_write (s : ScriptW) (rest p : List Nat)
    (hs : s.script = 0 :: rest) (hp : p ≠ []) :
    (writeAll scriptOps s p).2 = some Err.failedWrite := by
  obtain ⟨scr, lg, fl⟩ := s
  obtain rfl : scr = 0 :: rest := hs
  have hz : ¬ p.length = 0 := by simpa using hp
  obtain ⟨k, hk⟩ : ∃ k, p.length = k + 1 := ⟨p.length - 1, by omega⟩
  show (writeAllLoop scriptOps p.length ⟨0 :: rest, lg, fl⟩ p).2 = some Err.failedWrite
  rw [hk]
  unfold writeAllLoop
  rw [if_neg hz]
  have hw : scriptOps.write ⟨0 :: rest, lg, fl⟩ p = (⟨rest, lg, fl⟩, 0, none) := by
    show ((⟨rest, lg ++ p.take (min 0 p.length), fl⟩ : ScriptW), min 0 p.length,
          (none : Option Err)) = (⟨rest, lg, fl⟩, 0, none)
    rw [Nat.zero_min, List.take_zero, List.append_nil]
  rw [hw]
  rfl

theorem writeAll_partial (s : ScriptW) (k0 : Nat) (rest p : List Nat)
    (hs : s.script = k0 :: rest) (h0 : 0 < k0) (hlt : k0 < p.length) :
    writeAll scriptOps s p =
      writeAll scriptOps ⟨rest, s.log ++ p.take k0, s.flushes + 1⟩ (p.drop k0) := by
  obtain ⟨scr, lg, fl⟩ := s
  obtain rfl : scr = k0 :: rest := hs
  have hz : ¬ p.length = 0 := by omega
  have hmin : min k0 p.length = k0 := by omega
  obtain ⟨k, hk⟩ : ∃ k, p.length = k + 1 := ⟨p.length - 1, by omega⟩
  show writeAllLoop scriptOps p.length ⟨k0 :: rest, lg, fl⟩ p =
    writeAll scriptOps ⟨rest, lg ++ p.take k0, fl + 1⟩ (p.drop k0)
  rw [hk]
  unfold writeAllLoop
  rw [if_neg hz]
  have hw : scriptOps.write ⟨k0 :: rest, lg, fl⟩ p =
      (⟨rest, lg ++ p.take k0, fl⟩, k0, none) := by
    show ((⟨rest, lg ++ p.take (min k0 p.length), fl⟩ : ScriptW), min k0 p.length,
          (none : Option Err)) = (⟨rest, lg ++ p.take k0, fl⟩, k0, none)
    rw [hmin]
  rw [hw]
  show (if k0 = 0 then ((⟨rest, lg ++ p.take k0, fl⟩ : ScriptW), (some Err.failedWrite : Option Err))
        else if p.length ≤ k0 then (⟨rest, lg ++ p.take k0, fl⟩, none)
        else match scriptOps.flush ⟨rest, lg ++ p.take k0, fl⟩ with
             | (s2, some e) => (s2, some e)
             | (s2, none) => writeAllLoop scriptOps k s2 (p.drop k0)) =
    writeAll scriptOps ⟨rest, lg ++ p.take k0, fl + 1⟩ (p.drop k0)
  rw [if_neg (by omega : ¬ k0 = 0), if_neg (by omega : ¬ p.length ≤ k0)]
  show writeAllLoop scriptOps k ⟨rest, lg ++ p.take k0, fl + 1⟩ (p.drop k0) =
    writeAll scriptOps ⟨rest, lg ++ p.take k0, fl + 1⟩ (p.drop k0)
  exact writeAllLoop_eq_writeAll scriptOps k _ (p.drop k0)
    (by simp only [List.length_drop]; omega)

theorem writeAll_success : ∀ (L : Nat) (p : List Nat), p.length ≤ L →
    ∀ s : ScriptW, (∀ j ∈ s.script, 0 < j) →
    ∃ s' : ScriptW, writeAll scriptOps s p = (s', none) ∧ s'.log = s.log ++ p := by
  intro L
  induction L with
  | zero =>
    intro p hp s _
    have hnil : p = [] := List.length_eq_zero.mp (by omega)
    subst hnil
    exact ⟨s, rfl, (List.append_nil _).symm⟩
  | succ L ih =>
    intro p hp s hs
    by_cases hz : p.length = 0
    · have hnil : p = [] := List.length_eq_zero.mp hz
      subst hnil
      exact ⟨s, rfl, (List.append_nil _).symm⟩
    · obtain ⟨scr, lg, fl⟩ := s
      obtain ⟨k, hk⟩ : ∃ k, p.length = k + 1 := ⟨p.length - 1, by omega⟩
      cases scr with
      | nil =>
        refine ⟨⟨[], lg ++ p, fl⟩, ?_, rfl⟩
        show writeAllLoop scriptOps p.length ⟨[], lg, fl⟩ p = (⟨[], lg ++ p, fl⟩, none)
        rw [hk]
        unfold writeAllLoop
        rw [if_neg hz]
        have hw : scriptOps.write ⟨[], lg, fl⟩ p = (⟨[], lg ++ p, fl⟩, p.length, none) := rfl
        rw [hw]
        show (if p.length = 0 then ((⟨[], lg ++ p, fl⟩ : ScriptW), (some Err.failedWrite : Option Err))
              else if p.length ≤ p.length then (⟨[], lg ++ p, fl⟩, none)
              else match scriptOps.flush ⟨[], lg ++ p, fl⟩ with
                   | (s2, some e) => (s2, some e)
                   | (s2, none) => writeAllLoop scriptOps k s2 (p.drop p.length)) =
          (⟨[], lg ++ p, fl⟩, none)
        rw [if_neg hz, if_pos (le_refl p.length)]
      | cons k0 rest =>
        have h0 : 0 < k0 := hs k0 (List.mem_cons_self _ _)
        have hrest : ∀ j ∈ rest, 0 < j := fun j hj => hs j (List.mem_cons_of_mem _ hj)
        by_cases hle : p.length ≤ k0
        · refine ⟨⟨rest, lg ++ p, fl⟩, ?_, rfl⟩
          have hmin : min k0 p.length = p.length := by omega
          show writeAllLoop scriptOps p.length ⟨k0 :: rest, lg, fl⟩ p = (⟨rest, lg ++ p, fl⟩, none)
          rw [hk]
          unfold writeAllLoop
          rw [if_neg hz]
          have hw : scriptOps.write ⟨k0 :: rest, lg, fl⟩ p =
              (⟨rest, lg ++ p, fl⟩, p.length, none) := by
            show ((⟨rest, lg ++ p.take (min k0 p.length), fl⟩ : ScriptW), min k0 p.length,
                  (none : Option Err)) = (⟨rest, lg ++ p, fl⟩, p.length, none)
            rw [hmin, List.take_length]
          rw [hw]
          show (if p.length = 0 then ((⟨rest, lg ++ p, fl⟩ : ScriptW), (some Err.failedWrite : Option Err))
                else if p.length ≤ p.length then (⟨rest, lg ++ p, fl⟩, none)
                else match scriptOps.flush ⟨rest, lg ++ p, fl⟩ with
                     | (s2, some e) => (s2, some e)
                     | (s2, none) => writeAllLoop scriptOps k s2 (p.drop p.length)) =
            (⟨rest, lg ++ p, fl⟩, none)
          rw [if_neg hz, if_pos (le_refl p.length)]
        · push_neg at hle
          have hstep := writeAll_partial ⟨k0 :: rest, lg, fl⟩ k0 rest p rfl h0 hle
          obtain ⟨s', h1, h2⟩ := ih (p.drop k0)
            (by simp only [List.length_drop]; omega) ⟨rest, lg ++ p.take k0, fl + 1⟩ hrest
          refine ⟨s', ?_, ?_⟩
          · rw [hstep]
            exact h1
          · show s'.log = lg ++ p
            rw [h2]
            show (lg ++ p.take k0) ++ p.drop k0 = lg ++ p
            rw [List.append_assoc, List.take_append_drop]

/-- Claim C8: in writeAll, a Write call that accepts 0 bytes with no error is
fatal: the loop returns the "Failed to write bytes" error (Err.failedWrite).
A partial write (0 < n < remaining) is not an error: writeAll flushes the
buffered writer and retries the remaining bytes; and when every Write call
accepts at least one byte, writeAll returns no error having written every byte
of the input, in order, possibly across several calls. -/
theorem c8_writeall_semantics :
    (∀ (s : ScriptW) (rest p : List Nat), s.script = 0 :: rest → p ≠ [] →
        (writeAll scriptOps s p).2 = some Err.failedWrite) ∧
    (∀ (s : ScriptW) (k0 : Nat) (rest p : List Nat),
        s.script = k0 :: rest → 0 < k0 → k0 < p.length →
        writeAll scriptOps s p =
          writeAll scriptOps ⟨rest, s.log ++ p.take k0, s.flushes + 1⟩ (p.drop k0)) ∧
    (∀ (s : ScriptW) (p : List Nat), (∀ j ∈ s.script, 0 < j) →
        ∃ s' : ScriptW, writeAll scriptOps s p = (s', none) ∧ s'.log = s.log ++ p) :=
  ⟨writeAll_zero_write, writeAll_partial,
   fun s p hs => writeAll_success p.length p (le_refl _) s hs⟩

theorem c8_writeall_witness :
    (writeAll scriptOps ⟨[0], [], 0⟩ [1, 2, 3]).2 = some Err.failedWrite ∧
    writeAll scriptOps ⟨[2], [], 0⟩ [1, 2, 3] = writeAll scriptOps ⟨[], [1, 2], 1⟩ [3] ∧
    ∃ s', writeAll scriptOps ⟨[2], [], 0⟩ [1, 2, 3] = (s', none) ∧ s'.log = [1, 2, 3] :=
  ⟨c8_writeall_semantics.1 ⟨[0], [], 0⟩ [] [1, 2, 3] rfl (by decide),
   c8_writeall_semantics.2.1 ⟨[2], [], 0⟩ 2 [] [1, 2, 3] rfl (by decide) (by decide),
   by
     obtain ⟨s', h1, h2⟩ := c8_writeall_semantics.2.2 ⟨[2], [], 0⟩ [1, 2, 3] (by decide)
     exact ⟨s', h1, by simpa using h2⟩⟩

theorem entryFrame_length (e : Entry) (i : Nat) :
    (entryFrame e i).length = READ_ENTRY_HEADER_SIZE := by
  simp only [entryFrame, le32, le64, READ_ENTRY_HEADER_SIZE, ENTRY_HEADER_SIZE,
    List.length_append, List.length_take, List.length_replicate, List.length_cons,
    List.length_nil]
  omega

theorem ewWriteAll_fits2 (st : EW) (p : List Nat)
    (hfit : p.length ≤ st.bufw.cap - st.bufw.buf.length) :
    ewWriteAll st p =
      ({ st with bufw := { st.bufw with buf := st.bufw.buf ++ p } }, none) := by
  by_cases h0 : p.length = 0
  · have hnil : p = [] := List.length_eq_zero.mp h0
    subst hnil
    rw [List.append_nil]
    rfl
  · exact ewWriteAll_fits st p h0 hfit

theorem writeEntry_buffered (st : EW) (e : Entry)
    (hfull : st.ecb.count < st.ecb.capacity)
    (henc : e.encodeOk = true)
    (hfit : st.bufw.buf.length + (READ_ENTRY_HEADER_SIZE + e.data.length) ≤ st.bufw.cap) :
    writeEntry st e false =
      ({ st with
          bufw := { st.bufw with buf := (st.bufw.buf ++ entryFrame e st.id) ++ e.data },
          ecb := { st.ecb with
                   recs := st.ecb.recs ++ [{ sid := st.id, ent := e }],
                   count := st.ecb.count + 1 },
          id := st.id + 1 },
       Except.ok false) := by
  have hflen := entryFrame_length e st.id
  have hfull' : ¬ ecbFull st.ecb = true := by
    simp only [ecbFull, decide_eq_true_eq]
    omega
  have he : encodeHeader e =
      Except.ok ((e.header ++ List.replicate ENTRY_HEADER_SIZE 0).take ENTRY_HEADER_SIZE) := by
    unfold encodeHeader
    rw [if_pos henc]
  have hpre : writeEntryPre st e = ewWriteAll st (entryFrame e st.id) := by
    unfold writeEntryPre writeEntryFull
    rw [if_neg hfull']
    show (match encodeHeader e with
          | Except.error err => (st, some err)
          | Except.ok hdr => ewWriteAll st (le32 NEW_ENTRY_MAGIC ++ hdr ++ le64 st.id)) =
      ewWriteAll st (entryFrame e st.id)
    rw [he]
    rfl
  have h1 : writeEntryPre st e =
      ({ st with bufw := { st.bufw with buf := st.bufw.buf ++ entryFrame e st.id } }, none) := by
    rw [hpre]
    exact ewWriteAll_fits2 st (entryFrame e st.id) (by rw [hflen]; omega)
  have hbig : decide (st.bufw.cap - (st.bufw.buf ++ entryFrame e st.id).length < e.data.length)
      = false := by
    rw [decide_eq_false_iff_not, List.length_append, hflen]
    omega
  have hmid : writeEntryMid
      { st with bufw := { st.bufw with buf := st.bufw.buf ++ entryFrame e st.id } } e
      false false =
      ({ st with bufw := { st.bufw with buf := (st.bufw.buf ++ entryFrame e st.id) ++ e.data } },
       none) := by
    unfold writeEntryMid
    show step (ewWriteAll
        { st with bufw := { st.bufw with buf := st.bufw.buf ++ entryFrame e st.id } } e.data)
      (fun st3 => if (false : Bool) = true then ewFlush st3 else (st3, none)) = _
    rw [ewWriteAll_fits2 _ e.data (by
      show e.data.length ≤ st.bufw.cap - (st.bufw.buf ++ entryFrame e st.id).length
      rw [List.length_append, hflen]
      omega)]
    rfl
  have hadd : ecbAdd st.ecb { sid := st.id, ent := e } =
      Except.ok { st.ecb with
                  recs := st.ecb.recs ++ [{ sid := st.id, ent := e }],
                  count := st.ecb.count + 1 } := by
    unfold ecbAdd
    rw [if_neg (by omega : ¬ st.ecb.capacity ≤ st.ecb.count)]
  unfold writeEntry
  rw [h1]
  show (match writeEntryMid
          { st with bufw := { st.bufw with buf := st.bufw.buf ++ entryFrame e st.id } } e
          (decide (st.bufw.cap - (st.bufw.buf ++ entryFrame e st.id).length < e.data.length))
          false with
        | (st4, some err) => (st4, Except.error err)
        | (st4, none) =>
          match ecbAdd st4.ecb { sid := st4.id, ent := e } with
          | Except.error err => (st4, Except.error err)
          | Except.ok ecb1 =>
            ({ st4 with ecb := ecb1, id := st4.id + 1 },
             Except.ok
               (decide (st.bufw.cap - (st.bufw.buf ++ entryFrame e st.id).length < e.data.length)
                || false))) = _
  rw [hbig, hmid]
  show (match ecbAdd st.ecb { sid := st.id, ent := e } with
        | Except.error err =>
          ({ st with bufw :=
              { st.bufw with buf := (st.bufw.buf ++ entryFrame e st.id) ++ e.data } },
           Except.error err)
        | Except.ok ecb1 =>
          ({ st with
              bufw := { st.bufw with buf := (st.bufw.buf ++ entryFrame e st.id) ++ e.data },
              ecb := ecb1, id := st.id + 1 },
           Except.ok (false || false))) = _
  rw [hadd]
  rfl

theorem writeEntry_encodeFail (st : EW) (e : Entry)
    (hfull : st.ecb.count < st.ecb.capacity)
    (henc : e.encodeOk = false) :
    writeEntry st e false = (st, Except.error Err.encodeFail) := by
  have hfull' : ¬ ecbFull st.ecb = true := by
    simp only [ecbFull, decide_eq_true_eq]
    omega
  have he : encodeHeader e = Except.error Err.encodeFail := by
    unfold encodeHeader
    rw [if_neg (by simp [henc])]
  have hpre : writeEntryPre st e = (st, some Err.encodeFail) := by
    unfold writeEntryPre writeEntryFull
    rw [if_neg hfull']
    show (match encodeHeader e with
          | Except.error err => (st, some err)
          | Except.ok hdr => ewWriteAll st (le32 NEW_ENTRY_MAGIC ++ hdr ++ le64 st.id)) =
      (st, some Err.encodeFail)
    rw [he]
  unfold writeEntry
  rw [hpre]

set_option maxRecDepth 4000 in
/-- Claim C7, counterexample.  The claim says a failing WriteBatch
performed no per-entry flush for any entry of the batch.  With the
confirmation buffer full, 47 bytes still buffered and a silent peer,
WriteBatch over a single entry fails on its very first entry (the forced
ack service inside writeEntry times out), yet the buffered bytes were
flushed to the connection and the flush counter rose: the full-buffer
forced flush runs per entry even when the batch fails. -/
theorem c7_flush_counterexample :
    (writeBatch c7state [tinyEntry]).2 = some Err.timeout ∧
    (writeBatch c7state [tinyEntry]).1.bufw.flushes = c7state.bufw.flushes + 1 ∧
    (writeBatch c7state [tinyEntry]).1.conn.sent =
      c7state.conn.sent ++ List.replicate 47 0 := by
  exact ⟨rfl, rfl, rfl⟩

/-- Claim C7, amended: WriteBatch passes flush false to every writeEntry
call, so it never requests a per-entry sync flush, but flushes can still
occur inside a batch (the flush forced by a full confirmation buffer,
flushes inside ack servicing, the pre-payload flush, flushes inside
writeAll).  For a batch that fits in the buffered writer and in the
confirmation buffer (so that the only possible failure is a header-encode
failure), a failing WriteBatch has framed, buffered and added to the
confirmation buffer exactly the entries preceding the failing one, with
consecutive send-ids from the starting id, the failing entry and all
later entries have not been added, and no flush of any kind was
performed: nothing reaches the connection and the flush counter is
unchanged. -/
theorem c7_writebatch_partial (ents : List Entry) : ∀ (st stf : EW) (err : Err),
    st.ecb.count + ents.length ≤ st.ecb.capacity →
    st.bufw.buf.length + batchBytes ents ≤ st.bufw.cap →
    writeBatch st ents = (stf, some err) →
    ∃ i, i < ents.length ∧ err = Err.encodeFail ∧
      stf.ecb.recs = st.ecb.recs ++ recsFrom st.id (ents.take i) ∧
      stf.ecb.count = st.ecb.count + i ∧
      stf.id = st.id + i ∧
      stf.conn = st.conn ∧
      stf.bufw.flushes = st.bufw.flushes := by
  induction ents with
  | nil =>
    intro st stf err hcap hfit h
    simp [writeBatch] at h
  | cons e rest ih =>
    intro st stf err hcap hfit h
    simp only [List.length_cons] at hcap
    simp only [batchBytes, List.map_cons, List.sum_cons] at hfit
    by_cases henc : e.encodeOk = true
    · have hstep := writeEntry_buffered st e (by omega) henc (by omega)
      unfold writeBatch at h
      rw [hstep] at h
      replace h : writeBatch
          { st with
              bufw := { st.bufw with buf := (st.bufw.buf ++ entryFrame e st.id) ++ e.data },
              ecb := { st.ecb with
                       recs := st.ecb.recs ++ [{ sid := st.id, ent := e }],
                       count := st.ecb.count + 1 },
              id := st.id + 1 } rest = (stf, some err) := h
      obtain ⟨i, hi, herr, hrecs, hcount, hid, hconn, hfl⟩ :=
        ih { st with
              bufw := { st.bufw with buf := (st.bufw.buf ++ entryFrame e st.id) ++ e.data },
              ecb := { st.ecb with
                       recs := st.ecb.recs ++ [{ sid := st.id, ent := e }],
                       count := st.ecb.count + 1 },
              id := st.id + 1 } stf err
          (by show st.ecb.count + 1 + rest.length ≤ st.ecb.capacity; omega)
          (by show ((st.bufw.buf ++ entryFrame e st.id) ++ e.data).length + batchBytes rest
                ≤ st.bufw.cap
              rw [List.length_append, List.length_append, entryFrame_length]
              simp only [batchBytes]
              omega)
          h
      refine ⟨i + 1, by simp only [List.length_cons]; omega, herr, ?_, ?_, ?_, ?_, ?_⟩
      · rw [hrecs]
        show (st.ecb.recs ++ [{ sid := st.id, ent := e }]) ++
            recsFrom (st.id + 1) (rest.take i) =
          st.ecb.recs ++ ({ sid := st.id, ent := e } :: recsFrom (st.id + 1) (rest.take i))
        rw [List.append_assoc]
        rfl
      · rw [hcount]
        show st.ecb.count + 1 + i = st.ecb.count + (i + 1)
        omega
      · rw [hid]
        show st.id + 1 + i = st.id + (i + 1)
        omega
      · exact hconn
      · exact hfl
    · have henc' : e.encodeOk = false := by simpa using henc
      have hstep := writeEntry_encodeFail st e (by omega) henc'
      unfold writeBatch at h
      rw [hstep] at h
      replace h : ((st, some Err.encodeFail) : EW × Option Err) = (stf, some err) := h
      injection h with h1 h2
      injection h2 with h2
      subst h2
      subst h1
      refine ⟨0, by simp, rfl, (List.append_nil _).symm, rfl, rfl, rfl, rfl⟩

theorem c7_writebatch_witness :
    ((newEntryWriter liveConn).ecb.count + ([tinyEntry, badEntry] : List Entry).length
      ≤ (newEntryWriter liveConn).ecb.capacity) ∧
    ((newEntryWriter liveConn).bufw.buf.length + batchBytes [tinyEntry, badEntry]
      ≤ (newEntryWriter liveConn).bufw.cap) ∧
    (∃ i, i < ([tinyEntry, badEntry] : List Entry).length ∧ Err.encodeFail = Err.encodeFail ∧
      (writeBatch (newEntryWriter liveConn) [tinyEntry, badEntry]).1.ecb.recs =
        (newEntryWriter liveConn).ecb.recs ++
          recsFrom (newEntryWriter liveConn).id (([tinyEntry, badEntry] : List Entry).take i) ∧
      (writeBatch (newEntryWriter liveConn) [tinyEntry, badEntry]).1.ecb.count =
        (newEntryWriter liveConn).ecb.count + i ∧
      (writeBatch (newEntryWriter liveConn) [tinyEntry, badEntry]).1.id =
        (newEntryWriter liveConn).id + i ∧
      (writeBatch (newEntryWriter liveConn) [tinyEntry, badEntry]).1.conn =
        (newEntryWriter liveConn).conn ∧
      (writeBatch (newEntryWriter liveConn) [tinyEntry, badEntry]).1.bufw.flushes =
        (newEntryWriter liveConn).bufw.flushes) :=
  ⟨by decide, by decide,
   c7_writebatch_partial [tinyEntry, badEntry] (newEntryWriter liveConn)
     (writeBatch (newEntryWriter liveConn) [tinyEntry, badEntry]).1 Err.encodeFail
     (by decide) (by decide) rfl⟩
